import Mathlib

/-!
Verification of the bapsf_motion core: the LaPD-XY coordinate-transform
matrices (embedded from the prototype implementation in the LaPDXYTransform
notebook), the identity and LaPD-6K transforms, and the motion-builder
mask / exclusion / motion-list engine.
-/

namespace BapsfMotion

open Real

/-- Direction argument of a transform call (the source passes the strings
"drive" and "motion_space" as `to_coord`). -/
inductive Direction
  | to_drive
  | to_motion_space
deriving DecidableEq, Repr

/-- Configuration of the LaPD-XY transform: fixed geometric constants and
per-axis polarity signs, as in the notebook prototype
(`pivot_to_center`, `pivot_to_drive`, `drive_polarity`, `mspace_polarity`). -/
structure XYParams where
  pivot_to_center : ℝ
  pivot_to_drive : ℝ
  drive_polarity : ℝ × ℝ
  mspace_polarity : ℝ × ℝ

/-- The 3x3 homogeneous matrix built by `matrix_to_mspace(points, ...)` for a
single point: the drive polarity is applied to the point, `theta` is
`arctan(points[1] / pivot_to_drive)`, `alpha = pi - theta`, and the result is
`T_mpolarity @ T3 @ T2 @ T1 @ T_dpolarity` with the entries exactly as set in
the source. -/
noncomputable def matrix_to_mspace (P : XYParams) (point : ℝ × ℝ) : Matrix (Fin 3) (Fin 3) ℝ :=
  let q2 : ℝ := P.drive_polarity.2 * point.2
  let theta : ℝ := Real.arctan (q2 / P.pivot_to_drive)
  let alpha : ℝ := Real.pi - theta
  let T1 : Matrix (Fin 3) (Fin 3) ℝ :=
    !![Real.cos theta, 0, -P.pivot_to_drive * Real.cos theta;
       -Real.sin theta, 0, P.pivot_to_drive * Real.sin theta;
       0, 0, 1]
  let T2 : Matrix (Fin 3) (Fin 3) ℝ :=
    !![1, 0, -(P.pivot_to_drive + P.pivot_to_center) * Real.cos alpha;
       0, 1, -(P.pivot_to_drive + P.pivot_to_center) * Real.sin alpha;
       0, 0, 1]
  let T3 : Matrix (Fin 3) (Fin 3) ℝ :=
    !![1, 0, -P.pivot_to_center;
       0, 1, 0;
       0, 0, 1]
  let T_dpolarity : Matrix (Fin 3) (Fin 3) ℝ :=
    !![P.drive_polarity.1, 0, 0; 0, P.drive_polarity.2, 0; 0, 0, 1]
  let T_mpolarity : Matrix (Fin 3) (Fin 3) ℝ :=
    !![P.mspace_polarity.1, 0, 0; 0, P.mspace_polarity.2, 0; 0, 0, 1]
  T_mpolarity * (T3 * (T2 * (T1 * T_dpolarity)))

/-- The 3x3 homogeneous matrix built by `matrix_to_drive(points, ...)` for a
single point: the motion-space polarity is applied to the point,
`alpha = arctan(points[1] / (pivot_to_center + points[0]))`, and the result is
`T_dpolarity @ T3 @ T2 @ T1 @ T_mpolarity` with the entries exactly as set in
the source (note `T3[1,1] = 0`: the drive y-coordinate is rebuilt from the
angle alone). -/
noncomputable def matrix_to_drive (P : XYParams) (point : ℝ × ℝ) : Matrix (Fin 3) (Fin 3) ℝ :=
  let q1 : ℝ := P.mspace_polarity.1 * point.1
  let q2 : ℝ := P.mspace_polarity.2 * point.2
  let alpha : ℝ := Real.arctan (q2 / (P.pivot_to_center + q1))
  let T1 : Matrix (Fin 3) (Fin 3) ℝ :=
    !![1, 0, P.pivot_to_center;
       0, 1, 0;
       0, 0, 1]
  let T2 : Matrix (Fin 3) (Fin 3) ℝ :=
    !![1, 0, -(P.pivot_to_drive + P.pivot_to_center) * Real.cos alpha;
       0, 1, -(P.pivot_to_drive + P.pivot_to_center) * Real.sin alpha;
       0, 0, 1]
  let T3 : Matrix (Fin 3) (Fin 3) ℝ :=
    !![1 / Real.cos alpha, 0, P.pivot_to_drive;
       0, 0, -P.pivot_to_drive * Real.tan alpha;
       0, 0, 1]
  let T_dpolarity : Matrix (Fin 3) (Fin 3) ℝ :=
    !![P.drive_polarity.1, 0, 0; 0, P.drive_polarity.2, 0; 0, 0, 1]
  let T_mpolarity : Matrix (Fin 3) (Fin 3) ℝ :=
    !![P.mspace_polarity.1, 0, 0; 0, P.mspace_polarity.2, 0; 0, 0, 1]
  T_dpolarity * (T3 * (T2 * (T1 * T_mpolarity)))

/-- `convert(points, ..., to_coord)` for a single point: select the matrix by
direction, append the homogeneous 1 to the point, multiply, and keep the first
two components. -/
noncomputable def convert (P : XYParams) (point : ℝ × ℝ) (to_coord : Direction) : ℝ × ℝ :=
  let matrix : Matrix (Fin 3) (Fin 3) ℝ :=
    match to_coord with
    | .to_drive => matrix_to_drive P point
    | .to_motion_space => matrix_to_mspace P point
  let v : Fin 3 → ℝ := matrix.mulVec ![point.1, point.2, 1]
  (v 0, v 1)

/-- Modelled from the spec: the `IdentityTransform` class is not under src/
(only its demo notebook is); per the spec it "returns input unchanged
(trivial case, ... round trip must be exact, not merely close)". -/
def identity_convert (point : ℝ × ℝ) (_ : Direction) : ℝ × ℝ := point

/-- Modelled from the spec: geometric constants of the `LaPD6KTransform`
class, whose implementation is not under src/; the names and meanings are
those of the algorithm section of its notebook (`pivot_to_center` is the
distance D_C from ball-valve pivot to motion-space origin, `probe_axis_offset`
is d_o, `six_k_arm_length` is R_A). -/
structure SixKParams where
  pivot_to_center : ℝ
  pivot_to_drive : ℝ
  probe_axis_offset : ℝ
  six_k_arm_length : ℝ

/-- Modelled from the spec: the angular drop beta of the pinion, with
`tan beta = probe_axis_offset / pivot_to_drive`. -/
noncomputable def sixk_beta (P : SixKParams) : ℝ :=
  Real.arctan (P.probe_axis_offset / P.pivot_to_drive)

/-- Modelled from the spec: the pivot-to-pinion radius R_P, with
`R_P^2 = probe_axis_offset^2 + pivot_to_drive^2`. -/
noncomputable def sixk_RP (P : SixKParams) : ℝ :=
  Real.sqrt (P.probe_axis_offset ^ 2 + P.pivot_to_drive ^ 2)

/-- Modelled from the spec: the drive e1 coordinate as a function of the
probe-shaft angle theta, `e1 = R_A (cos alpha - 1) + d_o + R_P sin(theta - |beta|)`
with `sin alpha = (pivot_to_drive - R_P cos(theta - |beta|)) / R_A` — the
transcendental relation the numeric inverse solver inverts per point. -/
noncomputable def sixk_drive_e1 (P : SixKParams) (theta : ℝ) : ℝ :=
  let b := |sixk_beta P|
  let sinAlpha := (P.pivot_to_drive - sixk_RP P * Real.cos (theta - b)) / P.six_k_arm_length
  P.six_k_arm_length * (Real.cos (Real.arcsin sinAlpha) - 1)
    + P.probe_axis_offset + sixk_RP P * Real.sin (theta - b)

/-- Modelled from the spec: the closed-form probe-shaft angle for the
motion-to-drive direction, `tan theta = -y / (D_C + x)`. -/
noncomputable def sixk_theta_mspace (P : SixKParams) (p : ℝ × ℝ) : ℝ :=
  Real.arctan (-p.2 / (P.pivot_to_center + p.1))

/-- Modelled from the spec: the closed-form motion-to-drive conversion of the
LaPD-6K arm, `e0 = x / cos theta + D_C (1 / cos theta - 1)` and e1 from the
transcendental relation evaluated at the closed-form theta. -/
noncomputable def sixk_to_drive (P : SixKParams) (p : ℝ × ℝ) : ℝ × ℝ :=
  let theta := sixk_theta_mspace P p
  (p.1 / Real.cos theta + P.pivot_to_center * (1 / Real.cos theta - 1),
   sixk_drive_e1 P theta)

/-- Modelled from the spec: the drive-to-motion conversion of the LaPD-6K arm
given the probe-shaft angle theta recovered by the numeric root solver from
e1; the matrix form of the notebook gives
`x = cos theta * e0 + D_C (cos theta - 1)` and
`y = -sin theta * e0 - D_C sin theta`. -/
noncomputable def sixk_to_mspace (P : SixKParams) (e : ℝ × ℝ) (theta : ℝ) : ℝ × ℝ :=
  (Real.cos theta * e.1 + P.pivot_to_center * (Real.cos theta - 1),
   -Real.sin theta * e.1 - P.pivot_to_center * Real.sin theta)

/-! ## Motion-builder: exclusions, masks, layers, motion list

The exclusion and `MotionBuilder` classes are not under src/ (only their demo
notebooks, the GUI parameter-hint file and an example TOML are), so this part
of the model is built from the spec's data model and component design. -/

/-- A point of the 2-D motion space, with rational coordinates so that all
mask predicates are decidable. -/
abbrev MPoint := ℚ × ℚ

/-- Squared Euclidean distance between two points. -/
def dist2 (a b : MPoint) : ℚ := (a.1 - b.1) ^ 2 + (a.2 - b.2) ^ 2

/-- Modelled from the spec: the primitive exclusions (the `Shadow2DExclusion`
is omitted: its geometry is not specified beyond its purpose).
`circle`: "predicate = Euclidean distance from center vs radius; polarity
selects inside-excluded vs outside-excluded". `divider`: "predicate = signed
position relative to a line given by slope+intercept; polarity selects which
half-plane is excluded". -/
inductive PrimExclusion
  | circle (cx cy radius : ℚ) (exclude_inside : Bool)
  | divider (slope intercept : ℚ) (exclude_above : Bool)
deriving DecidableEq, Repr

/-- The geometric predicate `is_excluded(point)` of a primitive exclusion,
evaluated directly (not via mask lookup), hence defined for arbitrary
off-grid points. -/
def PrimExclusion.is_excluded : PrimExclusion → MPoint → Bool
  | .circle cx cy r inside, p =>
      let d2 := dist2 p (cx, cy)
      if inside then decide (d2 < r ^ 2) else decide (r ^ 2 < d2)
  | .divider m b above, p =>
      if above then decide (m * p.1 + b < p.2) else decide (p.2 < m * p.1 + b)

/-- Modelled from the spec: the default `CircularExclusion` construction
(`CircularExclusion(ds, radius=...)` with no explicit `exclude` argument)
excludes the outside of the circle. -/
def mk_circular_default (center : MPoint) (radius : ℚ) : PrimExclusion :=
  .circle center.1 center.2 radius false

/-- Modelled from the spec: an exclusion instance is either a primitive
exclusion or a governing compound exclusion owning an ordered collection of
composed child (primitive) exclusions. -/
inductive Exclusion
  | prim (e : PrimExclusion)
  | govern (composed_exclusions : List PrimExclusion)
deriving DecidableEq, Repr

/-- Whether the exclusion is a `GovernExclusion` (mask replacement rather
than AND-composition). -/
def Exclusion.governs : Exclusion → Bool
  | .prim _ => false
  | .govern _ => true

/-- The point-level predicate of an exclusion: a compound exclusion excludes
a point exactly when some composed child does. -/
def Exclusion.is_excluded : Exclusion → MPoint → Bool
  | .prim e, p => e.is_excluded p
  | .govern cs, p => cs.any (fun c => c.is_excluded p)

/-- The exclusion's own mask prediction over a point: allowed iff not
excluded; for a governing compound this is the intersection of all composed
children's masks. -/
def Exclusion.own_mask (e : Exclusion) (p : MPoint) : Bool := ! e.is_excluded p

/-- Modelled from the spec: one mask-update step. A non-governing exclusion
AND-composes its own prediction onto the shared mask; a governing exclusion
replaces the mask with its own composed mask. -/
def apply_exclusion (mask : MPoint → Bool) (e : Exclusion) : MPoint → Bool :=
  if e.governs then fun p => e.own_mask p
  else fun p => mask p && e.own_mask p

/-- Modelled from the spec: the mask lifecycle — initialized all-`True` at
Space creation, then updated by each exclusion in configuration order. -/
def build_mask (exclusions : List Exclusion) : MPoint → Bool :=
  exclusions.foldl apply_exclusion (fun _ => true)

/-- The nearest grid point to a query point (ties keep the earlier grid
point); stands in for the nearest-grid-index lookup of the builder. -/
def nearest (grid : List MPoint) (q : MPoint) : MPoint :=
  match grid with
  | [] => q
  | g :: gs => gs.foldl (fun best x => if dist2 x q < dist2 best q then x else best) g

/-- Modelled from the spec: the aggregate root owning the discretized space
(its grid points), the ordered exclusion list and the ordered layer list
(each layer already expanded to its generated candidate points, in
generation order). -/
structure MotionBuilderM where
  grid : List MPoint
  exclusions : List Exclusion
  layers : List (List MPoint)
deriving DecidableEq, Repr

/-- The builder's boolean validity mask. -/
def MotionBuilderM.mask (b : MotionBuilderM) : MPoint → Bool :=
  build_mask b.exclusions

/-- Modelled from the spec: `motion_list` — "concatenation over layers (in
order) of that layer's points, each filtered by nearest-grid-index lookup
into `mask`; point order within a layer preserved; invalid points dropped,
not reordered". -/
def MotionBuilderM.motion_list (b : MotionBuilderM) : List MPoint :=
  b.layers.flatten.filter (fun q => b.mask (nearest b.grid q))

/-! ## Exported configuration (plain primitive types) and re-import -/

/-- Modelled from the spec: the exported plain-primitive configuration entry
of a primitive exclusion, with the polarity serialized as the string the
classes accept (`exclude="inside"/"outside"` for circles, `exclude="+e1"/"-e1"`
for dividers). -/
inductive PrimExclusionConfig
  | circle (cx cy radius : ℚ) (exclude : String)
  | divider (slope intercept : ℚ) (exclude : String)
deriving DecidableEq, Repr

/-- The `config` attribute of a primitive exclusion: its concrete parameter
values as plain primitives. -/
def PrimExclusion.config : PrimExclusion → PrimExclusionConfig
  | .circle cx cy r inside =>
      .circle cx cy r (if inside then "inside" else "outside")
  | .divider m b above =>
      .divider m b (if above then "+e1" else "-e1")

/-- Modelled from the spec: re-instantiating a primitive exclusion from an
exported configuration entry; an unknown polarity string is a configuration
error (`none`). -/
def prim_from_config : PrimExclusionConfig → Option PrimExclusion
  | .circle cx cy r ex =>
      if ex = "inside" then some (.circle cx cy r true)
      else if ex = "outside" then some (.circle cx cy r false)
      else none
  | .divider m b ex =>
      if ex = "+e1" then some (.divider m b true)
      else if ex = "-e1" then some (.divider m b false)
      else none

/-- Exported configuration of an exclusion: either one primitive entry or the
entries of a governing compound's composed children. -/
inductive ExclusionConfig
  | prim (c : PrimExclusionConfig)
  | govern (children : List PrimExclusionConfig)
deriving DecidableEq, Repr

/-- The `config` attribute of an exclusion. -/
def Exclusion.config : Exclusion → ExclusionConfig
  | .prim e => .prim e.config
  | .govern cs => .govern (cs.map PrimExclusion.config)

/-- Parse every entry of a list, failing if any entry fails. -/
def parse_list {α β : Type} (g : β → Option α) : List β → Option (List α)
  | [] => some []
  | c :: cs =>
      match g c, parse_list g cs with
      | some a, some as => some (a :: as)
      | _, _ => none

/-- Re-instantiating an exclusion from its exported configuration. -/
def exclusion_from_config : ExclusionConfig → Option Exclusion
  | .prim c => (prim_from_config c).map .prim
  | .govern cs => (parse_list prim_from_config cs).map .govern

/-- Modelled from the spec: the full nested exported configuration of a
builder (space, exclusions, layers with their concrete parameter values),
as plain primitives. -/
structure BuilderConfig where
  grid : List MPoint
  exclusions : List ExclusionConfig
  layers : List (List MPoint)
deriving DecidableEq, Repr

/-- The builder's exported `config`. -/
def MotionBuilderM.config (b : MotionBuilderM) : BuilderConfig :=
  { grid := b.grid
    exclusions := b.exclusions.map Exclusion.config
    layers := b.layers }

/-- Feeding an exported configuration into a fresh builder. -/
def builder_from_config (c : BuilderConfig) : Option MotionBuilderM :=
  (parse_list exclusion_from_config c.exclusions).map fun exs =>
    { grid := c.grid, exclusions := exs, layers := c.layers }

/-! ## Construction-time rejection of a second governing exclusion -/

/-- Whether the builder already holds a governing exclusion. -/
def has_govern (exclusions : List Exclusion) : Bool :=
  exclusions.any Exclusion.governs

/-- The topology-error message raised when a second governing exclusion is
registered on one builder. -/
def govern_error : String := "only one governing exclusion is allowed per builder"

/-- Modelled from the spec: registering one more exclusion during builder
construction. A second governing exclusion "added to the same builder [is]
rejected at construction"; the rejection returns an error and no modified
builder. -/
def add_exclusion (b : MotionBuilderM) (e : Exclusion) : Except String MotionBuilderM :=
  if e.governs && has_govern b.exclusions then Except.error govern_error
  else Except.ok { b with exclusions := b.exclusions ++ [e] }

/-- Modelled from the spec: constructing a builder from a space, an ordered
exclusion list and layers — exclusions are registered in configuration
order. -/
def build_builder (grid : List MPoint) (exclusions : List Exclusion)
    (layers : List (List MPoint)) : Except String MotionBuilderM :=
  exclusions.foldlM add_exclusion { grid := grid, exclusions := [], layers := layers }

/-! ## LaPD-XY chamber-port governing exclusion: port locations -/

/-- A `port_location` argument: a named port or a numeric angle in degrees. -/
inductive PortLocation
  | name (s : String)
  | angle (degrees : ℝ)

/-- Modelled from the spec: "named ports map to fixed angles; arbitrary
angles accepted in degrees" — `E`/`East` is 0 degrees, `T`/`Top` 90, `W`/`West`
180, `B`/`Bottom` 270 (case variants accepted); an unknown name is a
configuration error. -/
noncomputable def port_angle : PortLocation → Option ℝ
  | .angle a => some a
  | .name s =>
      if s = "E" ∨ s = "East" ∨ s = "e" ∨ s = "east" then some 0
      else if s = "T" ∨ s = "Top" ∨ s = "t" ∨ s = "top" then some 90
      else if s = "W" ∨ s = "West" ∨ s = "w" ∨ s = "west" then some 180
      else if s = "B" ∨ s = "Bottom" ∨ s = "b" ∨ s = "bottom" then some 270
      else none

/-- Modelled from the spec: the remaining parameters of the chamber-port
(LaPD-XY) governing exclusion: chamber radius, pivot radius and cone
half-angle (degrees). -/
structure LaPDXYGeom where
  radius : ℝ
  pivot_radius : ℝ
  cone_half_angle : ℝ

/-- Degrees to radians. -/
noncomputable def deg2rad (d : ℝ) : ℝ := d * Real.pi / 180

/-- Rotation of a point by an angle (used to refer an arbitrary port back to
the East-port reference construction). -/
noncomputable def rotate_pt (a : ℝ) (p : ℝ × ℝ) : ℝ × ℝ :=
  (Real.cos a * p.1 + Real.sin a * p.2, -Real.sin a * p.1 + Real.cos a * p.2)

/-- Modelled from the spec: the composed predicate of the chamber-port
exclusion at a given port angle — one circular exclusion (chamber interior
allowed) plus the two cone divider exclusions of the East-port reference
construction (slope `tan(cone_half_angle)` through the pivot), applied to the
point rotated from the port to the East reference. -/
noncomputable def lapdxy_excluded (g : LaPDXYGeom) (portAngleDeg : ℝ) (p : ℝ × ℝ) : Prop :=
  let slope := Real.tan (deg2rad g.cone_half_angle)
  let intercept := |g.pivot_radius| * slope
  let q := rotate_pt (deg2rad portAngleDeg) p
  g.radius ^ 2 < p.1 ^ 2 + p.2 ^ 2
    ∨ -slope * q.1 + intercept < q.2
    ∨ q.2 < slope * q.1 - intercept

/-- The chamber-port exclusion's mask (its composed predicate over arbitrary
points) for a `port_location` argument; `none` on an unknown port name. -/
noncomputable def lapdxy_mask_from (g : LaPDXYGeom) (loc : PortLocation) :
    Option ((ℝ × ℝ) → Prop) :=
  (port_angle loc).map fun a => fun p => ¬ lapdxy_excluded g a p

/-! ## Concrete instances used by witnesses and counterexamples -/

/-- The named Top port string. -/
def portT : String := "T"


/-- Unit parameters (all geometric constants and polarities 1) used by the
C6 counterexample. -/
noncomputable def xyUnitParams : XYParams :=
  { pivot_to_center := 1
    pivot_to_drive := 1
    drive_polarity := (1, 1)
    mspace_polarity := (1, 1) }

/-- The notebook's LaPD-XY parameters: `pivot_to_center=57.288`,
`pivot_to_drive=134.0`, `drive_polarity=[1,1]`, `mspace_polarity=[-1,1]`. -/
noncomputable def notebookXY : XYParams :=
  { pivot_to_center := 57.288
    pivot_to_drive := 134.0
    drive_polarity := (1, 1)
    mspace_polarity := (-1, 1) }

/-- The notebook's LaPD-6K parameters (`pivot_to_center=57.288`,
`pivot_to_drive=134.0`, `probe_axis_offset=20.1`, arm length from the example
TOML). -/
noncomputable def notebook6K : SixKParams :=
  { pivot_to_center := 57.288
    pivot_to_drive := 134.0
    probe_axis_offset := 20.1
    six_k_arm_length := 93.345 }

/-- The demo circular exclusion of radius 30 about the origin with the
default polarity (exclude outside). -/
def demo_circle30 : PrimExclusion := mk_circular_default (0, 0) 30

/-- The second demo circular exclusion: radius 20 about (10, 10), inside
excluded. -/
def demo_circle_inside : PrimExclusion := .circle 10 10 20 true

/-- A governing compound exclusion whose single composed child allows the
disk of radius 50 about the origin. -/
def demo_govern : Exclusion := .govern [mk_circular_default (0, 0) 50]

/-- A second governing compound exclusion (chamber of radius 40). -/
def demo_govern2 : Exclusion := .govern [mk_circular_default (0, 0) 40]

/-- A non-governing center obstruction of radius 5, as in the builder demo
configuration `{"type": "circle", "radius": 5, "exclude": "inside"}`. -/
def demo_center_obstruction : Exclusion := .prim (.circle 0 0 5 true)

/-- A small concrete builder for witnesses: four grid points, no exclusion,
one layer. -/
def demo_builder : MotionBuilderM :=
  { grid := [(0, 0), (1, 0), (0, 1), (1, 1)]
    exclusions := [.prim demo_circle30]
    layers := [[(0, 0), (3, 0)], [(1, 1)]] }

/-- A builder already holding a governing exclusion. -/
def demo_builder_gov : MotionBuilderM :=
  { grid := [(0, 0), (1, 0)]
    exclusions := [demo_govern]
    layers := [] }

/-- Closed form of the drive-direction conversion. -/
theorem convert_to_drive_eq (P : XYParams) (point : ℝ × ℝ) :
    convert P point .to_drive =
      (P.drive_polarity.1 * ((P.pivot_to_center + P.mspace_polarity.1 * point.1
          - (P.pivot_to_drive + P.pivot_to_center)
            * Real.cos (Real.arctan ((P.mspace_polarity.2 * point.2)
                / (P.pivot_to_center + P.mspace_polarity.1 * point.1))))
          / Real.cos (Real.arctan ((P.mspace_polarity.2 * point.2)
                / (P.pivot_to_center + P.mspace_polarity.1 * point.1)))
          + P.pivot_to_drive),
       P.drive_polarity.2 * (-(P.pivot_to_drive
          * Real.tan (Real.arctan ((P.mspace_polarity.2 * point.2)
                / (P.pivot_to_center + P.mspace_polarity.1 * point.1)))))) := by
  unfold convert matrix_to_drive
  simp only []
  rw [← Matrix.mulVec_mulVec, ← Matrix.mulVec_mulVec, ← Matrix.mulVec_mulVec,
    ← Matrix.mulVec_mulVec]
  simp [Matrix.cons_mulVec, Matrix.cons_dotProduct, Matrix.vecHead, Matrix.vecTail]
  constructor <;> ring

/-- Closed form of the motion-space-direction conversion. -/
theorem convert_to_mspace_eq (P : XYParams) (point : ℝ × ℝ) :
    convert P point .to_motion_space =
      (P.mspace_polarity.1 * ((P.drive_polarity.1 * point.1 - P.pivot_to_drive)
          * Real.cos (Real.arctan ((P.drive_polarity.2 * point.2) / P.pivot_to_drive))
          - (P.pivot_to_drive + P.pivot_to_center)
            * Real.cos (Real.pi
                - Real.arctan ((P.drive_polarity.2 * point.2) / P.pivot_to_drive))
          - P.pivot_to_center),
       P.mspace_polarity.2 * (-((P.drive_polarity.1 * point.1 - P.pivot_to_drive)
          * Real.sin (Real.arctan ((P.drive_polarity.2 * point.2) / P.pivot_to_drive)))
          - (P.pivot_to_drive + P.pivot_to_center)
            * Real.sin (Real.pi
                - Real.arctan ((P.drive_polarity.2 * point.2) / P.pivot_to_drive)))) := by
  unfold convert matrix_to_mspace
  simp only []
  rw [← Matrix.mulVec_mulVec, ← Matrix.mulVec_mulVec, ← Matrix.mulVec_mulVec,
    ← Matrix.mulVec_mulVec]
  simp [Matrix.cons_mulVec, Matrix.cons_dotProduct, Matrix.vecHead, Matrix.vecTail]
  constructor <;> ring

/-- Round trip motion space to drive and back, exact over the reals on the
valid domain. -/
theorem lapdxy_roundtrip_mspace (P : XYParams) (p : ℝ × ℝ)
    (hm1 : P.mspace_polarity.1 = 1 ∨ P.mspace_polarity.1 = -1)
    (hm2 : P.mspace_polarity.2 = 1 ∨ P.mspace_polarity.2 = -1)
    (hd1 : P.drive_polarity.1 = 1 ∨ P.drive_polarity.1 = -1)
    (hd2 : P.drive_polarity.2 = 1 ∨ P.drive_polarity.2 = -1)
    (hD : P.pivot_to_drive ≠ 0)
    (hdom : P.pivot_to_center + P.mspace_polarity.1 * p.1 ≠ 0) :
    convert P (convert P p .to_drive) .to_motion_space = p := by
  obtain ⟨x, y⟩ := p
  simp only at hdom
  have hm1s : P.mspace_polarity.1 * P.mspace_polarity.1 = 1 := by
    rcases hm1 with h | h <;> rw [h] <;> norm_num
  have hm2s : P.mspace_polarity.2 * P.mspace_polarity.2 = 1 := by
    rcases hm2 with h | h <;> rw [h] <;> norm_num
  have hd1s : P.drive_polarity.1 * P.drive_polarity.1 = 1 := by
    rcases hd1 with h | h <;> rw [h] <;> norm_num
  have hd2s : P.drive_polarity.2 * P.drive_polarity.2 = 1 := by
    rcases hd2 with h | h <;> rw [h] <;> norm_num
  rw [convert_to_drive_eq, convert_to_mspace_eq]
  dsimp only
  set rx : ℝ := P.pivot_to_center + P.mspace_polarity.1 * x with hrx
  set ry : ℝ := P.mspace_polarity.2 * y with hry
  set a : ℝ := Real.arctan (ry / rx) with ha
  have hcos : Real.cos a ≠ 0 := ne_of_gt (by rw [ha]; exact Real.cos_arctan_pos _)
  have harg : P.drive_polarity.2 * (P.drive_polarity.2
      * (-(P.pivot_to_drive * Real.tan a))) / P.pivot_to_drive = Real.tan (-a) := by
    rw [Real.tan_neg, ← mul_assoc, hd2s, one_mul, neg_div,
      mul_div_cancel_left₀ _ hD]
  have hbound1 : -(Real.pi / 2) < -a := by
    have := Real.arctan_lt_pi_div_two (ry / rx)
    rw [ha]; linarith
  have hbound2 : -a < Real.pi / 2 := by
    have := Real.neg_pi_div_two_lt_arctan (ry / rx)
    rw [ha]; linarith
  have htheta : Real.arctan (P.drive_polarity.2 * (P.drive_polarity.2
      * (-(P.pivot_to_drive * Real.tan a))) / P.pivot_to_drive) = -a := by
    rw [harg, Real.arctan_tan hbound1 hbound2]
  simp only [htheta, Real.cos_pi_sub, Real.sin_pi_sub, Real.cos_neg, Real.sin_neg]
  have hA : P.drive_polarity.1 * (P.drive_polarity.1
      * ((rx - (P.pivot_to_drive + P.pivot_to_center) * Real.cos a) / Real.cos a
        + P.pivot_to_drive)) =
      (rx - (P.pivot_to_drive + P.pivot_to_center) * Real.cos a) / Real.cos a
        + P.pivot_to_drive := by
    rw [← mul_assoc, hd1s, one_mul]
  rw [hA]
  have hsin : Real.sin a = ry / rx * Real.cos a := by
    have hsc : Real.sin a / Real.cos a = ry / rx := by
      rw [← Real.tan_eq_sin_div_cos, ha, Real.tan_arctan]
    exact (div_eq_iff hcos).mp hsc
  rw [hsin]
  rw [Prod.mk.injEq]
  constructor
  · field_simp
    linear_combination x * hm1s
  · field_simp
    linear_combination (Real.cos a * y
      * (P.pivot_to_center + P.mspace_polarity.1 * x) ^ 2) * hm2s

theorem lapdxy_roundtrip_drive (P : XYParams) (d : ℝ × ℝ)
    (hm1 : P.mspace_polarity.1 = 1 ∨ P.mspace_polarity.1 = -1)
    (hm2 : P.mspace_polarity.2 = 1 ∨ P.mspace_polarity.2 = -1)
    (hd1 : P.drive_polarity.1 = 1 ∨ P.drive_polarity.1 = -1)
    (hd2 : P.drive_polarity.2 = 1 ∨ P.drive_polarity.2 = -1)
    (hD : P.pivot_to_drive ≠ 0)
    (hdom : P.pivot_to_center + P.drive_polarity.1 * d.1 ≠ 0) :
    convert P (convert P d .to_motion_space) .to_drive = d := by
  obtain ⟨x, y⟩ := d
  simp only at hdom
  have hm1s : P.mspace_polarity.1 * P.mspace_polarity.1 = 1 := by
    rcases hm1 with h | h <;> rw [h] <;> norm_num
  have hm2s : P.mspace_polarity.2 * P.mspace_polarity.2 = 1 := by
    rcases hm2 with h | h <;> rw [h] <;> norm_num
  have hd1s : P.drive_polarity.1 * P.drive_polarity.1 = 1 := by
    rcases hd1 with h | h <;> rw [h] <;> norm_num
  have hd2s : P.drive_polarity.2 * P.drive_polarity.2 = 1 := by
    rcases hd2 with h | h <;> rw [h] <;> norm_num
  rw [convert_to_mspace_eq, convert_to_drive_eq]
  dsimp only
  set t : ℝ := Real.arctan ((P.drive_polarity.2 * y) / P.pivot_to_drive) with ht
  simp only [Real.cos_pi_sub, Real.sin_pi_sub, mul_neg, neg_neg, sub_neg_eq_add]
  have hcos : Real.cos t ≠ 0 := ne_of_gt (by rw [ht]; exact Real.cos_arctan_pos _)
  have hA : P.drive_polarity.1 * x + P.pivot_to_center ≠ 0 := by
    rwa [add_comm] at hdom
  have harg : P.mspace_polarity.2 * (P.mspace_polarity.2
        * (-((P.drive_polarity.1 * x - P.pivot_to_drive) * Real.sin t)
          - (P.pivot_to_drive + P.pivot_to_center) * Real.sin t))
      / (P.pivot_to_center + P.mspace_polarity.1 * (P.mspace_polarity.1
        * ((P.drive_polarity.1 * x - P.pivot_to_drive) * Real.cos t
          + (P.pivot_to_drive + P.pivot_to_center) * Real.cos t
          - P.pivot_to_center))) = Real.tan (-t) := by
    rw [Real.tan_neg, Real.tan_eq_sin_div_cos, ← mul_assoc, hm2s, one_mul,
      ← mul_assoc, hm1s, one_mul]
    have h1 : -((P.drive_polarity.1 * x - P.pivot_to_drive) * Real.sin t)
        - (P.pivot_to_drive + P.pivot_to_center) * Real.sin t
        = -((P.drive_polarity.1 * x + P.pivot_to_center) * Real.sin t) := by ring
    have h2 : P.pivot_to_center
        + ((P.drive_polarity.1 * x - P.pivot_to_drive) * Real.cos t
          + (P.pivot_to_drive + P.pivot_to_center) * Real.cos t - P.pivot_to_center)
        = (P.drive_polarity.1 * x + P.pivot_to_center) * Real.cos t := by ring
    rw [h1, h2, neg_div, mul_div_mul_left _ _ hA]
  have hbound1 : -(Real.pi / 2) < -t := by
    have := Real.arctan_lt_pi_div_two ((P.drive_polarity.2 * y) / P.pivot_to_drive)
    rw [ht]; linarith
  have hbound2 : -t < Real.pi / 2 := by
    have := Real.neg_pi_div_two_lt_arctan ((P.drive_polarity.2 * y) / P.pivot_to_drive)
    rw [ht]; linarith
  rw [harg, Real.arctan_tan hbound1 hbound2, Real.cos_neg, Real.tan_neg]
  rw [Prod.mk.injEq]
  constructor
  · field_simp
    linear_combination (x * Real.cos t
        * (P.mspace_polarity.1 * P.mspace_polarity.1)) * hd1s
      + (x * Real.cos t + P.drive_polarity.1 * P.pivot_to_center * Real.cos t
        - P.drive_polarity.1 * P.pivot_to_center) * hm1s
  · simp only [mul_neg, neg_neg]
    rw [ht, Real.tan_arctan]
    field_simp
    linear_combination y * hd2s

/-- The identity transform round trip is exact. -/
theorem identity_roundtrip (p : ℝ × ℝ) (d1 d2 : Direction) :
    identity_convert (identity_convert p d1) d2 = p := rfl

/-- LaPD-6K round trip motion space to drive and back, exact when the solver
recovers the exact closed-form angle. -/
theorem sixk_roundtrip_mspace (P : SixKParams) (p : ℝ × ℝ)
    (hdom : P.pivot_to_center + p.1 ≠ 0) :
    sixk_to_mspace P (sixk_to_drive P p) (sixk_theta_mspace P p) = p := by
  obtain ⟨x, y⟩ := p
  simp only at hdom
  unfold sixk_to_mspace sixk_to_drive sixk_theta_mspace
  dsimp only
  set θ : ℝ := Real.arctan (-y / (P.pivot_to_center + x)) with hθ
  have hcos : Real.cos θ ≠ 0 := ne_of_gt (by rw [hθ]; exact Real.cos_arctan_pos _)
  have hsin : Real.sin θ = -y / (P.pivot_to_center + x) * Real.cos θ := by
    have hsc : Real.sin θ / Real.cos θ = -y / (P.pivot_to_center + x) := by
      rw [← Real.tan_eq_sin_div_cos, hθ, Real.tan_arctan]
    exact (div_eq_iff hcos).mp hsc
  rw [Prod.mk.injEq]
  constructor
  · field_simp
    ring
  · rw [hsin]
    field_simp
    ring

/-- LaPD-6K round trip drive to motion space and back, exact when the numeric
solver returns an exact root theta of the transcendental e1 relation. -/
theorem sixk_roundtrip_drive (P : SixKParams) (e : ℝ × ℝ) (θ : ℝ)
    (hb1 : -(Real.pi / 2) < θ) (hb2 : θ < Real.pi / 2)
    (hsolver : sixk_drive_e1 P θ = e.2)
    (hdom : P.pivot_to_center + e.1 ≠ 0) :
    sixk_to_drive P (sixk_to_mspace P e θ) = e := by
  obtain ⟨e0, e1⟩ := e
  simp only at hsolver hdom
  have hA : e0 + P.pivot_to_center ≠ 0 := by rwa [add_comm] at hdom
  have hcos : Real.cos θ ≠ 0 := ne_of_gt (Real.cos_pos_of_mem_Ioo ⟨hb1, hb2⟩)
  unfold sixk_to_drive sixk_to_mspace sixk_theta_mspace
  dsimp only
  have harg : -(-Real.sin θ * e0 - P.pivot_to_center * Real.sin θ)
      / (P.pivot_to_center + (Real.cos θ * e0 + P.pivot_to_center * (Real.cos θ - 1)))
      = Real.tan θ := by
    rw [Real.tan_eq_sin_div_cos]
    have h1 : -(-Real.sin θ * e0 - P.pivot_to_center * Real.sin θ)
        = (e0 + P.pivot_to_center) * Real.sin θ := by ring
    have h2 : P.pivot_to_center
        + (Real.cos θ * e0 + P.pivot_to_center * (Real.cos θ - 1))
        = (e0 + P.pivot_to_center) * Real.cos θ := by ring
    rw [h1, h2, mul_div_mul_left _ _ hA]
  rw [harg, Real.arctan_tan hb1 hb2]
  rw [Prod.mk.injEq]
  constructor
  · field_simp
    ring
  · exact hsolver

/-- The full homogeneous vector produced by the drive matrix agrees with the
converted point with homogeneous coordinate 1. -/
theorem matrix_to_drive_mulVec (P : XYParams) (p : ℝ × ℝ) :
    (matrix_to_drive P p).mulVec ![p.1, p.2, 1] =
      ![(convert P p Direction.to_drive).1, (convert P p Direction.to_drive).2, 1] := by
  funext i
  fin_cases i
  · rfl
  · rfl
  · show ((matrix_to_drive P p).mulVec ![p.1, p.2, 1]) 2 = 1
    unfold matrix_to_drive
    rw [← Matrix.mulVec_mulVec, ← Matrix.mulVec_mulVec, ← Matrix.mulVec_mulVec,
      ← Matrix.mulVec_mulVec]
    simp [Matrix.cons_mulVec, Matrix.cons_dotProduct, Matrix.vecHead, Matrix.vecTail]

/-- The full homogeneous vector produced by the motion-space matrix agrees
with the converted point with homogeneous coordinate 1. -/
theorem matrix_to_mspace_mulVec (P : XYParams) (p : ℝ × ℝ) :
    (matrix_to_mspace P p).mulVec ![p.1, p.2, 1] =
      ![(convert P p Direction.to_motion_space).1,
        (convert P p Direction.to_motion_space).2, 1] := by
  funext i
  fin_cases i
  · rfl
  · rfl
  · show ((matrix_to_mspace P p).mulVec ![p.1, p.2, 1]) 2 = 1
    unfold matrix_to_mspace
    rw [← Matrix.mulVec_mulVec, ← Matrix.mulVec_mulVec, ← Matrix.mulVec_mulVec,
      ← Matrix.mulVec_mulVec]
    simp [Matrix.cons_mulVec, Matrix.cons_dotProduct, Matrix.vecHead, Matrix.vecTail]

/-- C6 counterexample: at the fixed input point (0, 0) with unit parameters,
the product of the independently built to_motion_space and to_drive matrices
has entry (1, 1) equal to 0 — off by a full 1 from the identity matrix — so
the two matrices are not mutual (approximate) inverses as matrices. -/
theorem C6_matrices_not_inverse_cex :
    (matrix_to_mspace xyUnitParams (0, 0) * matrix_to_drive xyUnitParams (0, 0)) 1 1 = 0
    ∧ matrix_to_mspace xyUnitParams (0, 0) * matrix_to_drive xyUnitParams (0, 0)
        ≠ (1 : Matrix (Fin 3) (Fin 3) ℝ) := by
  have h : (matrix_to_mspace xyUnitParams (0, 0)
      * matrix_to_drive xyUnitParams (0, 0)) 1 1 = 0 := by
    unfold matrix_to_mspace matrix_to_drive xyUnitParams
    norm_num [Real.arctan_zero, Real.cos_zero, Real.sin_zero, Real.tan_zero,
      Real.cos_pi, Real.sin_pi, Matrix.mul_fin_three, Matrix.cons_val_one,
      Matrix.cons_val_zero, Matrix.head_cons]
  refine ⟨h, fun hEq => ?_⟩
  rw [hEq] at h
  simp [Matrix.one_apply_eq] at h

/-- C6 amended: for a fixed motion-space point in the valid domain, the
to_drive matrix built at the point and the to_motion_space matrix built at
the resulting drive point are mutual inverses in their action on the point
itself — the composed homogeneous application returns the homogeneous point
exactly. -/
theorem C6_matrices_inverse_on_point (P : XYParams) (p : ℝ × ℝ)
    (hm1 : P.mspace_polarity.1 = 1 ∨ P.mspace_polarity.1 = -1)
    (hm2 : P.mspace_polarity.2 = 1 ∨ P.mspace_polarity.2 = -1)
    (hd1 : P.drive_polarity.1 = 1 ∨ P.drive_polarity.1 = -1)
    (hd2 : P.drive_polarity.2 = 1 ∨ P.drive_polarity.2 = -1)
    (hD : P.pivot_to_drive ≠ 0)
    (hdom : P.pivot_to_center + P.mspace_polarity.1 * p.1 ≠ 0) :
    (matrix_to_mspace P (convert P p Direction.to_drive)).mulVec
        ((matrix_to_drive P p).mulVec ![p.1, p.2, 1]) = ![p.1, p.2, 1] := by
  rw [matrix_to_drive_mulVec, matrix_to_mspace_mulVec,
    lapdxy_roundtrip_mspace P p hm1 hm2 hd1 hd2 hD hdom]

/-- C6 amended witness at the notebook parameters and the point (5, 5). -/
theorem C6_matrices_inverse_on_point_witness :
    (matrix_to_mspace notebookXY (convert notebookXY ((5 : ℝ), (5 : ℝ)) Direction.to_drive)).mulVec
        ((matrix_to_drive notebookXY ((5 : ℝ), (5 : ℝ))).mulVec ![5, 5, 1]) = ![5, 5, 1] :=
  C6_matrices_inverse_on_point notebookXY (5, 5)
    (by norm_num [notebookXY]) (by norm_num [notebookXY])
    (by norm_num [notebookXY]) (by norm_num [notebookXY])
    (by norm_num [notebookXY]) (by norm_num [notebookXY])

/-- C1: for every configured transform (identity, LaPD-XY, LaPD-6K) and
every point in the valid domain, converting to drive coordinates and back to
motion-space coordinates returns the point, and likewise in the drive ->
motion space -> drive direction; over the real-number model the round trips
are exact (hence within any configured tolerance), and for the identity
transform the round trip is exact by definition. The LaPD-6K forward/inverse
pair is stated with the inverse evaluated at the exact root of the
transcendental e1 relation that its numeric solver computes. -/
theorem C1_transform_roundtrips :
    (∀ (p : ℝ × ℝ) (d1 d2 : Direction),
      identity_convert (identity_convert p d1) d2 = p)
    ∧ (∀ (P : XYParams) (p : ℝ × ℝ),
        P.mspace_polarity.1 = 1 ∨ P.mspace_polarity.1 = -1 →
        P.mspace_polarity.2 = 1 ∨ P.mspace_polarity.2 = -1 →
        P.drive_polarity.1 = 1 ∨ P.drive_polarity.1 = -1 →
        P.drive_polarity.2 = 1 ∨ P.drive_polarity.2 = -1 →
        P.pivot_to_drive ≠ 0 →
        P.pivot_to_center + P.mspace_polarity.1 * p.1 ≠ 0 →
        convert P (convert P p Direction.to_drive) Direction.to_motion_space = p)
    ∧ (∀ (P : XYParams) (d : ℝ × ℝ),
        P.mspace_polarity.1 = 1 ∨ P.mspace_polarity.1 = -1 →
        P.mspace_polarity.2 = 1 ∨ P.mspace_polarity.2 = -1 →
        P.drive_polarity.1 = 1 ∨ P.drive_polarity.1 = -1 →
        P.drive_polarity.2 = 1 ∨ P.drive_polarity.2 = -1 →
        P.pivot_to_drive ≠ 0 →
        P.pivot_to_center + P.drive_polarity.1 * d.1 ≠ 0 →
        convert P (convert P d Direction.to_motion_space) Direction.to_drive = d)
    ∧ (∀ (P : SixKParams) (p : ℝ × ℝ), P.pivot_to_center + p.1 ≠ 0 →
        sixk_to_mspace P (sixk_to_drive P p) (sixk_theta_mspace P p) = p)
    ∧ (∀ (P : SixKParams) (e : ℝ × ℝ) (θ : ℝ),
        -(Real.pi / 2) < θ → θ < Real.pi / 2 →
        sixk_drive_e1 P θ = e.2 → P.pivot_to_center + e.1 ≠ 0 →
        sixk_to_drive P (sixk_to_mspace P e θ) = e) :=
  ⟨identity_roundtrip,
   lapdxy_roundtrip_mspace,
   lapdxy_roundtrip_drive,
   sixk_roundtrip_mspace,
   fun P e θ hb1 hb2 => sixk_roundtrip_drive P e θ hb1 hb2⟩

/-- C1 witness: the round trips evaluated at concrete parameters and points,
with every hypothesis discharged. -/
theorem C1_transform_roundtrips_witness :
    identity_convert (identity_convert ((3, 4) : ℝ × ℝ) Direction.to_drive)
        Direction.to_motion_space = (3, 4)
    ∧ convert notebookXY (convert notebookXY ((5, 5) : ℝ × ℝ) Direction.to_drive)
        Direction.to_motion_space = (5, 5)
    ∧ convert notebookXY (convert notebookXY ((5, 5) : ℝ × ℝ) Direction.to_motion_space)
        Direction.to_drive = (5, 5)
    ∧ sixk_to_mspace notebook6K (sixk_to_drive notebook6K ((5, 5) : ℝ × ℝ))
        (sixk_theta_mspace notebook6K ((5, 5) : ℝ × ℝ)) = (5, 5)
    ∧ sixk_to_drive notebook6K
        (sixk_to_mspace notebook6K ((2, sixk_drive_e1 notebook6K 0) : ℝ × ℝ) 0)
        = (2, sixk_drive_e1 notebook6K 0) := by
  refine ⟨C1_transform_roundtrips.1 _ _ _,
    C1_transform_roundtrips.2.1 notebookXY (5, 5) ?_ ?_ ?_ ?_ ?_ ?_,
    C1_transform_roundtrips.2.2.1 notebookXY (5, 5) ?_ ?_ ?_ ?_ ?_ ?_,
    C1_transform_roundtrips.2.2.2.1 notebook6K (5, 5) ?_,
    C1_transform_roundtrips.2.2.2.2 notebook6K (2, sixk_drive_e1 notebook6K 0) 0
      ?_ ?_ rfl ?_⟩
  · norm_num [notebookXY]
  · norm_num [notebookXY]
  · norm_num [notebookXY]
  · norm_num [notebookXY]
  · norm_num [notebookXY]
  · norm_num [notebookXY]
  · norm_num [notebookXY]
  · norm_num [notebookXY]
  · norm_num [notebookXY]
  · norm_num [notebookXY]
  · norm_num [notebookXY]
  · norm_num [notebookXY]
  · norm_num [notebook6K]
  · have := Real.pi_pos; linarith
  · have := Real.pi_pos; linarith
  · norm_num [notebook6K]

/-- C7: with pivot_to_center 57.288 and pivot_to_drive 134.0 (and the
default polarities), the point (5, 5) converted to drive coordinates and
back to motion space differs from (5, 5) by at most 1e-6 in each coordinate
(in the real-number model the round trip is exact). -/
theorem C7_lapdxy_5_5_roundtrip :
    |(convert notebookXY (convert notebookXY ((5, 5) : ℝ × ℝ) Direction.to_drive)
        Direction.to_motion_space).1 - 5| ≤ 1 / 1000000
    ∧ |(convert notebookXY (convert notebookXY ((5, 5) : ℝ × ℝ) Direction.to_drive)
        Direction.to_motion_space).2 - 5| ≤ 1 / 1000000 := by
  have h : convert notebookXY (convert notebookXY ((5, 5) : ℝ × ℝ) Direction.to_drive)
      Direction.to_motion_space = (5, 5) :=
    lapdxy_roundtrip_mspace notebookXY (5, 5)
      (by norm_num [notebookXY]) (by norm_num [notebookXY])
      (by norm_num [notebookXY]) (by norm_num [notebookXY])
      (by norm_num [notebookXY]) (by norm_num [notebookXY])
  rw [h]
  norm_num

/-! ## Mask lemmas -/

/-- Folding non-governing exclusions over any starting mask AND-composes
their own masks onto it. -/
theorem foldl_apply_nonGovern (exs : List Exclusion) (mask0 : MPoint → Bool)
    (h : ∀ e ∈ exs, e.governs = false) (p : MPoint) :
    exs.foldl apply_exclusion mask0 p
      = (mask0 p && exs.all fun e => e.own_mask p) := by
  induction exs generalizing mask0 with
  | nil => simp
  | cons e es ih =>
    have he : e.governs = false := h e (List.mem_cons_self e es)
    have hes : ∀ x ∈ es, x.governs = false := fun x hx => h x (List.mem_cons_of_mem e hx)
    rw [List.foldl_cons, ih _ hes]
    simp [apply_exclusion, he, Bool.and_assoc]

/-- C2: with only non-governing exclusions, the mask starts all-True, equals
the AND of the individual exclusion predictions at every point, and adding
one more non-governing exclusion never turns a False cell back to True. -/
theorem C2_mask_is_and_of_exclusions (exs : List Exclusion) (p : MPoint) :
    build_mask [] p = true
    ∧ ((∀ e ∈ exs, e.governs = false) →
        (build_mask exs p = true ↔ ∀ e ∈ exs, e.is_excluded p = false))
    ∧ (∀ e2 : Exclusion, e2.governs = false → build_mask exs p = false →
        build_mask (exs ++ [e2]) p = false) := by
  refine ⟨rfl, fun h => ?_, fun e2 h2 hfalse => ?_⟩
  · rw [build_mask, foldl_apply_nonGovern exs _ h p]
    simp [Exclusion.own_mask]
  · rw [build_mask, List.foldl_append]
    rw [build_mask] at hfalse
    simp [apply_exclusion, h2, hfalse]

/-- C2 witness: the equivalence instantiated on two concrete circular
exclusions at the origin. -/
theorem C2_mask_is_and_of_exclusions_witness :
    build_mask [.prim demo_circle30, .prim demo_circle_inside] (0, 0) = true
      ↔ ∀ e ∈ [Exclusion.prim demo_circle30, .prim demo_circle_inside],
          e.is_excluded (0, 0) = false :=
  (C2_mask_is_and_of_exclusions
    [.prim demo_circle30, .prim demo_circle_inside] (0, 0)).2.1
    (by simp [Exclusion.governs])

/-- C3 counterexample: a builder holding the governing exclusion and a
non-governing center obstruction added after it has mask False at the origin
even though the governing exclusion's own composed predicate allows the
origin, so the final mask is not the governing exclusion's own predicate
irrespective of the other exclusions. -/
theorem C3_governing_not_irrespective_cex :
    build_mask [demo_govern, demo_center_obstruction] (0, 0) = false
    ∧ demo_govern.own_mask (0, 0) = true
    ∧ build_mask [demo_govern, demo_center_obstruction] (0, 0)
        ≠ demo_govern.own_mask (0, 0) := by
  norm_num [build_mask, apply_exclusion, demo_govern, demo_center_obstruction,
    Exclusion.governs, Exclusion.own_mask, Exclusion.is_excluded,
    PrimExclusion.is_excluded, mk_circular_default, dist2]

/-- C3 amended: when the governing exclusion is the last exclusion applied,
the mask exactly equals its own composed predicate (the intersection of its
composed children's masks), replacing the pre-existing global mask whatever
exclusions were applied before; exclusions applied after it AND onto that
result instead. -/
theorem C3_governing_replaces_mask (prior : List Exclusion) (g : Exclusion)
    (hg : g.governs = true) (p : MPoint) :
    build_mask (prior ++ [g]) p = g.own_mask p := by
  rw [build_mask, List.foldl_append]
  simp [apply_exclusion, hg]

/-- C3 amended witness: the governing exclusion replaces the mask carved by
a prior obstruction. -/
theorem C3_governing_replaces_mask_witness :
    build_mask ([demo_center_obstruction] ++ [demo_govern]) (0, 0)
      = demo_govern.own_mask (0, 0) :=
  C3_governing_replaces_mask [demo_center_obstruction] demo_govern rfl (0, 0)

/-! ## Motion list (C4) -/

/-- C4: the motion list is the mask-filtered concatenation of the layers:
its length is bounded by the total number of candidate points, every returned
point's nearest grid point has mask True, and it is a sublist of the
layer-order concatenation (so dropped points never reorder the rest). -/
theorem C4_motion_list_spec (b : MotionBuilderM) :
    b.motion_list.length ≤ (b.layers.map List.length).sum
    ∧ (∀ q ∈ b.motion_list, b.mask (nearest b.grid q) = true)
    ∧ b.motion_list.Sublist b.layers.flatten := by
  refine ⟨?_, ?_, List.filter_sublist _⟩
  · calc b.motion_list.length ≤ b.layers.flatten.length :=
          List.length_filter_le _ _
      _ = (b.layers.map List.length).sum := List.length_flatten _
  · intro q hq
    exact (List.mem_filter.mp hq).2

/-- C4 witness: in the demo builder, the origin survives the filter and its
nearest grid point is unmasked. -/
theorem C4_motion_list_spec_witness :
    demo_builder.mask (nearest demo_builder.grid (0, 0)) = true :=
  (C4_motion_list_spec demo_builder).2.1 (0, 0)
    (by norm_num [MotionBuilderM.motion_list, MotionBuilderM.mask, demo_builder,
      build_mask, apply_exclusion, Exclusion.governs, Exclusion.own_mask,
      Exclusion.is_excluded, PrimExclusion.is_excluded, mk_circular_default,
      demo_circle30, dist2, nearest])

/-! ## Configuration round trip (C5) -/

/-- Reconstructing a primitive exclusion from its exported configuration
gives back the exclusion. -/
theorem prim_from_config_roundtrip (e : PrimExclusion) :
    prim_from_config e.config = some e := by
  cases e with
  | circle cx cy r inside => cases inside <;> rfl
  | divider m b above => cases above <;> rfl

/-- Mapping a faithful parser over exported entries reconstructs the original
list. -/
theorem parse_list_map_roundtrip {α β : Type} (f : α → β) (g : β → Option α)
    (h : ∀ a, g (f a) = some a) (l : List α) : parse_list g (l.map f) = some l := by
  induction l with
  | nil => rfl
  | cons a l ih => simp [parse_list, h, ih]

/-- Reconstructing an exclusion from its exported configuration gives back
the exclusion. -/
theorem exclusion_from_config_roundtrip (e : Exclusion) :
    exclusion_from_config e.config = some e := by
  cases e with
  | prim c => simp [Exclusion.config, exclusion_from_config, prim_from_config_roundtrip]
  | govern cs =>
      simp [Exclusion.config, exclusion_from_config,
        parse_list_map_roundtrip PrimExclusion.config prim_from_config
          prim_from_config_roundtrip cs]

/-- C5: exporting a builder's full nested configuration and feeding it into a
fresh builder reproduces the builder, hence a bit-for-bit identical mask and
motion list; and any exclusion reconstructed from its exported config has an
unchanged point predicate. -/
theorem C5_config_roundtrip :
    (∀ b : MotionBuilderM, builder_from_config b.config = some b)
    ∧ (∀ b b' : MotionBuilderM, builder_from_config b.config = some b' →
        (∀ p, b'.mask p = b.mask p) ∧ b'.motion_list = b.motion_list)
    ∧ (∀ (e e' : Exclusion) (p : MPoint),
        exclusion_from_config e.config = some e' →
        e'.is_excluded p = e.is_excluded p) := by
  have hb : ∀ b : MotionBuilderM, builder_from_config b.config = some b := by
    intro b
    rw [builder_from_config, MotionBuilderM.config]
    rw [parse_list_map_roundtrip Exclusion.config exclusion_from_config
      exclusion_from_config_roundtrip b.exclusions]
    rfl
  refine ⟨hb, fun b b' h => ?_, fun e e' p h => ?_⟩
  · rw [hb b] at h
    cases h
    exact ⟨fun _ => rfl, rfl⟩
  · rw [exclusion_from_config_roundtrip e] at h
    cases h
    rfl

/-- C5 witness: the reconstruction hypothesis discharged on the demo builder
and the demo circular exclusion. -/
theorem C5_config_roundtrip_witness :
    (demo_builder.mask (0, 0) = demo_builder.mask (0, 0)
      ∧ demo_builder.motion_list = demo_builder.motion_list)
    ∧ (Exclusion.prim demo_circle30).is_excluded (31, 0)
        = (Exclusion.prim demo_circle30).is_excluded (31, 0) := by
  refine ⟨?_, ?_⟩
  · have h := C5_config_roundtrip.2.1 demo_builder demo_builder
      (by simp [builder_from_config, MotionBuilderM.config, demo_builder,
        parse_list, exclusion_from_config, Exclusion.config, PrimExclusion.config,
        prim_from_config, demo_circle30, mk_circular_default])
    exact ⟨h.1 (0, 0), h.2⟩
  · exact C5_config_roundtrip.2.2 (.prim demo_circle30) (.prim demo_circle30) (31, 0)
      (by simp [exclusion_from_config, Exclusion.config, PrimExclusion.config,
        prim_from_config, demo_circle30, mk_circular_default])

/-! ## Topology error: at most one governing exclusion (C9) -/

/-- Once the accumulating builder holds a governing exclusion, registering
any further governing exclusion fails the whole construction fold. -/
theorem foldlM_error_of_has_govern (exs : List Exclusion) (b : MotionBuilderM)
    (hb : has_govern b.exclusions = true) (hs : exs.any Exclusion.governs = true) :
    exs.foldlM add_exclusion b = Except.error govern_error := by
  induction exs generalizing b with
  | nil => simp at hs
  | cons e es ih =>
    rw [List.foldlM_cons]
    cases hge : e.governs with
    | true =>
        have : add_exclusion b e = Except.error govern_error := by
          simp [add_exclusion, hge, hb]
        rw [this]
        rfl
    | false =>
        have hok : add_exclusion b e
            = Except.ok { b with exclusions := b.exclusions ++ [e] } := by
          simp [add_exclusion, hge]
        rw [hok]
        have hb2 : has_govern (b.exclusions ++ [e]) = true := by
          simp [has_govern, List.any_append]
          left
          simpa [has_govern] using hb
        have hs2 : es.any Exclusion.governs = true := by
          simpa [hge] using hs
        simpa using ih { b with exclusions := b.exclusions ++ [e] } hb2 hs2

/-- A positive governing count forces a governing entry. -/
theorem any_govern_of_countP_pos (l : List Exclusion)
    (h : 1 ≤ l.countP (fun e => e.governs)) : l.any Exclusion.governs = true := by
  induction l with
  | nil => simp [List.countP_nil] at h
  | cons e es ih =>
    cases hge : e.governs with
    | true => simp [List.any_cons, hge]
    | false =>
        rw [List.any_cons, hge]
        simp only [Bool.false_or]
        apply ih
        have heq : (e :: es).countP (fun x => x.governs)
            = es.countP (fun x => x.governs) := by
          simp [List.countP_cons, hge]
        omega

/-- A configuration containing two governing exclusions always fails the
construction fold, whatever builder state it starts from. -/
theorem foldlM_error_of_two_governs (exs : List Exclusion) (b : MotionBuilderM)
    (h2 : 2 ≤ exs.countP (fun e => e.governs)) :
    exs.foldlM add_exclusion b = Except.error govern_error := by
  induction exs generalizing b with
  | nil => simp [List.countP_nil] at h2
  | cons e es ih =>
    cases hbg : has_govern b.exclusions with
    | true =>
        apply foldlM_error_of_has_govern _ _ hbg
        apply any_govern_of_countP_pos
        omega
    | false =>
        cases hge : e.governs with
        | true =>
            rw [List.foldlM_cons]
            have hok : add_exclusion b e
                = Except.ok { b with exclusions := b.exclusions ++ [e] } := by
              simp [add_exclusion, hge, hbg]
            rw [hok]
            have hb2 : has_govern (b.exclusions ++ [e]) = true := by
              simp [has_govern, List.any_append, hge]
            have hs2 : es.any Exclusion.governs = true := by
              apply any_govern_of_countP_pos
              have heq : (e :: es).countP (fun x => x.governs)
                  = es.countP (fun x => x.governs) + 1 := by
                simp [List.countP_cons, hge]
              omega
            simpa using foldlM_error_of_has_govern es _ hb2 hs2
        | false =>
            rw [List.foldlM_cons]
            have hok : add_exclusion b e
                = Except.ok { b with exclusions := b.exclusions ++ [e] } := by
              simp [add_exclusion, hge]
            rw [hok]
            have h2e : 2 ≤ es.countP (fun e => e.governs) := by
              have : (e :: es).countP (fun e => e.governs)
                  = es.countP (fun e => e.governs) := by
                simp [List.countP_cons, hge]
              omega
            simpa using ih _ h2e

/-- C9: a second governing exclusion is rejected when registered — the
single-step registration returns the topology error (and no updated
builder), and any construction whose exclusion list holds two governing
exclusions fails as a whole at construction time. -/
theorem C9_second_governing_rejected :
    (∀ (b : MotionBuilderM) (e : Exclusion), has_govern b.exclusions = true →
      e.governs = true → add_exclusion b e = Except.error govern_error)
    ∧ (∀ (grid : List MPoint) (layers : List (List MPoint)) (exs : List Exclusion),
        2 ≤ exs.countP (fun e => e.governs) →
        build_builder grid exs layers = Except.error govern_error) := by
  constructor
  · intro b e hb he
    simp [add_exclusion, hb, he]
  · intro grid layers exs h2
    exact foldlM_error_of_two_governs exs _ h2

/-- C9 witness: a builder already holding the governing chamber exclusion
rejects a second one, and a two-governing-exclusion configuration fails to
build. -/
theorem C9_second_governing_rejected_witness :
    add_exclusion demo_builder_gov demo_govern2 = Except.error govern_error
    ∧ build_builder [] [demo_govern, demo_govern2] [] = Except.error govern_error := by
  refine ⟨C9_second_governing_rejected.1 demo_builder_gov demo_govern2 ?_ rfl,
    C9_second_governing_rejected.2 [] [] [demo_govern, demo_govern2] ?_⟩
  · rfl
  · simp [List.countP_cons, demo_govern, demo_govern2, Exclusion.governs]

/-! ## Chamber-port named vs numeric location (C8) -/

/-- C8: with the same space and remaining parameters, the chamber-port
governing exclusion built with the named Top port and the one built with the
numeric angle 90 produce identical masks (the named port maps to the fixed
angle 90 and the construction depends on the port location only through that
angle). -/
theorem C8_port_T_eq_angle_90 (g : LaPDXYGeom) :
    lapdxy_mask_from g (.name portT) = lapdxy_mask_from g (.angle 90)
    ∧ port_angle (.name portT) = some 90 := by
  constructor
  · rfl
  · rfl

/-! ## Circular exclusion default polarity (C10) -/

/-- C10: a circular exclusion constructed without an explicit exclude
argument excludes the outside: any point (on or off the grid) strictly
inside the circle is not excluded and any point strictly outside it is
excluded; in particular with radius 30 about the origin, (0, 0) is not
excluded while (-30, 30) is. -/
theorem C10_circle_default_excludes_outside :
    (∀ (center : MPoint) (radius : ℚ) (p : MPoint), 0 ≤ radius →
      (dist2 p center < radius ^ 2 →
        (mk_circular_default center radius).is_excluded p = false)
      ∧ (radius ^ 2 < dist2 p center →
        (mk_circular_default center radius).is_excluded p = true))
    ∧ (mk_circular_default (0, 0) 30).is_excluded (0, 0) = false
    ∧ (mk_circular_default (0, 0) 30).is_excluded (-30, 30) = true := by
  refine ⟨fun center radius p _ => ⟨fun h => ?_, fun h => ?_⟩, ?_, ?_⟩
  · simp [mk_circular_default, PrimExclusion.is_excluded, not_lt]
    exact le_of_lt h
  · simp [mk_circular_default, PrimExclusion.is_excluded]
    exact h
  · norm_num [mk_circular_default, PrimExclusion.is_excluded, dist2]
  · norm_num [mk_circular_default, PrimExclusion.is_excluded, dist2]

/-- C10 witness: the general bounds instantiated at radius 30 about the
origin. -/
theorem C10_circle_default_excludes_outside_witness :
    (mk_circular_default (0, 0) 30).is_excluded (1, 1) = false :=
  ((C10_circle_default_excludes_outside.1 (0, 0) 30 (1, 1)
    (by norm_num)).1 (by norm_num [dist2]))

end BapsfMotion
